import Mathlib

/-!
Shallow embedding of the cargo-cmd sources (src/cargo.rs, src/main.rs) and
verification of the frozen claims about its specification.

The filesystem and the external `glob` crate are modelled as oracles: a
`Ctx` supplies the file contents, the TOML parse result for a given text,
and, for each glob pattern, either a pattern error or the iterator of
per-entry results (each entry being a glob error or a matched path),
exactly the shape the `glob` crate exposes.  Paths are raw strings;
`PathBuf` equality in Rust compares normalized components, modelled by
`pathComponents`.
-/

namespace CargoCmd

/-- Mirror of `ErrorKind` in src/cargo.rs (the module `main.rs` actually
declares; src/error.rs is not referenced by `mod` and is dead code). -/
inductive ErrorKind where
  | IoError : String → ErrorKind
  | ParseError : String → ErrorKind
  | PatternError : String → ErrorKind
  | GlobError : String → ErrorKind
  | MissingCommand : String → ErrorKind
  | MissingWorkspace : String → ErrorKind
  | NotPackage : ErrorKind
  | NotRootPackage : ErrorKind
  | NotVirtualManifest : ErrorKind
  | PathBufConversionError : String → ErrorKind
  | MalformedManifest : String → ErrorKind
deriving DecidableEq, Repr

/-- Mirror of `Error` in src/cargo.rs. -/
structure Error where
  kind : ErrorKind
  message : String
deriving DecidableEq, Repr

/-- Split a character list at `/` separators. -/
def splitSlash : List Char → List Char → List (List Char)
  | [], acc => [acc.reverse]
  | c :: rest, acc =>
      if c = '/' then acc.reverse :: splitSlash rest []
      else splitSlash rest (c :: acc)

/-- Component-wise view of a path string, modelling how `std::path::Path`
normalizes repeated separators, trailing separators and inner `.`
components while keeping a leading root or a leading `.`. -/
def pathComponents (s : String) : List String :=
  let parts := ((splitSlash s.data []).map (fun cs => String.mk cs)).filter
    (fun c => c != "" && c != ".")
  match s.data with
  | '/' :: _ => "/" :: parts
  | ['.'] => "." :: parts
  | '.' :: '/' :: _ => "." :: parts
  | _ => parts

/-- `PathBuf` equality: component lists coincide. -/
def pathEq (a b : String) : Bool :=
  pathComponents a == pathComponents b

/-- In `extend_globs` a matched path is filtered out when
`exclude_path_bufs.contains(path_buf)` holds, i.e. when it is `PathBuf`-equal
to some exclude entry. -/
def excludedBy (excludes : List String) (p : String) : Bool :=
  excludes.any (fun e => pathEq e p)

/-- The glob oracle: for a pattern, either a pattern error (the `Err` of
`glob::glob`) or the list of per-entry results produced by iterating the
returned `Paths` (each `Err` carrying a `glob::GlobError` message). -/
def GlobFn : Type := String → Except String (List (Except String String))

/-- Inner loop of `extend_glob` (src/cargo.rs lines 50-62): collect the
iterated entries, returning a `GlobError` on the first failed entry. -/
def collectEntries : List (Except String String) → Except Error (List String)
  | [] => .ok []
  | .error e :: _ =>
      .error { kind := .GlobError e, message := "Error reading path for globbing" }
  | .ok p :: rest => (collectEntries rest).map (fun ps => p :: ps)

/-- Mirror of `extend_glob` (src/cargo.rs lines 44-64). -/
def extend_glob (globFn : GlobFn) (pattern : String) : Except Error (List String) :=
  match globFn pattern with
  | .error e =>
      .error { kind := .PatternError e,
               message := "Invalid glob pattern \"" ++ pattern ++ "\"" }
  | .ok entries => collectEntries entries

/-- Mirror of `extend_globs` (src/cargo.rs lines 30-42): expand each pattern
in order, appending its matches minus the `PathBuf`-equal excludes. -/
def extend_globs (globFn : GlobFn) (patterns : List String) (excludes : List String) :
    Except Error (List String) :=
  match patterns with
  | [] => .ok []
  | pat :: rest =>
      match extend_glob globFn pat with
      | .error e => .error e
      | .ok pbs =>
          match extend_globs globFn rest excludes with
          | .error e => .error e
          | .ok tail => .ok (pbs.filter (fun p => !excludedBy excludes p) ++ tail)

/-- Discriminator used to state that a result is *not* a `GlobError`. -/
def isGlobErrorKind : Except Error (List String) → Bool
  | .error { kind := .GlobError _, message := _ } => true
  | _ => false

/-- Untyped TOML document tree (`toml::Value`), restricted to the shapes the
program inspects. -/
inductive Toml where
  | str : String → Toml
  | int : Int → Toml
  | boolean : Bool → Toml
  | arr : List Toml → Toml
  | table : List (String × Toml) → Toml
deriving Repr

/-- `table.get(key)` on a parsed TOML table (keys are unique in parsed TOML;
first match is taken). -/
def Toml.lookup (kvs : List (String × Toml)) (key : String) : Option Toml :=
  match kvs with
  | [] => none
  | (k, v) :: rest => if k == key then some v else Toml.lookup rest key

/-- Serde view of a TOML array as `Vec<String>`: every element must be a
string. -/
def stringsOf : List Toml → Except String (List String)
  | [] => .ok []
  | .str s :: rest => (stringsOf rest).map (fun ss => s :: ss)
  | _ :: _ => .error "invalid type: expected a string"

/-- `value.try_into::<Vec<String>>()`. -/
def tryIntoStringList : Toml → Except String (List String)
  | .arr xs => stringsOf xs
  | _ => .error "invalid type: expected an array"

/-- Serde view of a TOML table as `HashMap<String, String>`: every value must
be a string. -/
def stringPairsOf : List (String × Toml) → Except String (List (String × String))
  | [] => .ok []
  | (k, .str v) :: rest => (stringPairsOf rest).map (fun ps => (k, v) :: ps)
  | (_, _) :: _ => .error "invalid type: expected a string"

/-- `value.try_into::<HashMap<String, String>>()`. -/
def tryIntoStringMap : Toml → Except String (List (String × String))
  | .table kvs => stringPairsOf kvs
  | _ => .error "invalid type: expected a map"

/-- Mirror of `Metadata` (src/cargo.rs lines 221-224); the `HashMap` is
modelled as an association list with unique keys. -/
structure Metadata where
  commands : List (String × String)
deriving DecidableEq, Repr

/-- Serde derive for `Metadata`: a table whose required `commands` field is a
string-to-string map. -/
def metadataOfToml : Toml → Except String Metadata
  | .table kvs =>
      match Toml.lookup kvs "commands" with
      | some v => (tryIntoStringMap v).map (fun m => { commands := m })
      | none => .error "missing field commands"
  | _ => .error "invalid type: expected a map"

/-- Mirror of `impl TryFrom<toml::Value> for Metadata` (lines 226-238). -/
def Metadata.tryFrom (value : Toml) : Except Error Metadata :=
  match metadataOfToml value with
  | .error e => .error { kind := .ParseError e, message := "Failed to convert metadata" }
  | .ok m => .ok m

/-- Mirror of the live `Package` (src/cargo.rs lines 120-123): the `metadata`
field is *not* optional. -/
structure Package where
  metadata : Metadata
deriving DecidableEq, Repr

/-- Serde derive for `Package`: a table whose required `metadata` field
deserializes to `Metadata`. -/
def packageOfToml : Toml → Except String Package
  | .table kvs =>
      match Toml.lookup kvs "metadata" with
      | some v => (metadataOfToml v).map (fun m => { metadata := m })
      | none => .error "missing field metadata"
  | _ => .error "invalid type: expected a map"

/-- Mirror of `impl TryFrom<toml::Value> for Package` (lines 125-137). -/
def Package.tryFrom (value : Toml) : Except Error Package :=
  match packageOfToml value with
  | .error e => .error { kind := .ParseError e, message := "Failed to convert package" }
  | .ok p => .ok p

/-- Mirror of the live `Workspace` (src/cargo.rs lines 139-143). -/
structure Workspace where
  members : List Package
  metadata : Metadata
deriving DecidableEq, Repr

/-- Mirror of the `CargoToml` enum (src/cargo.rs lines 240-255). -/
inductive CargoToml where
  | package : String → Metadata → CargoToml
  | rootPackage : String → Package → Workspace → CargoToml
  | virtualManifest : String → Workspace → CargoToml
deriving DecidableEq, Repr

def CargoToml.isPackage : CargoToml → Bool
  | .package _ _ => true
  | _ => false

def CargoToml.isRootPackage : CargoToml → Bool
  | .rootPackage _ _ _ => true
  | _ => false

def CargoToml.isVirtualManifest : CargoToml → Bool
  | .virtualManifest _ _ => true
  | _ => false

/-- Environment oracles: file contents, the TOML parse of a given text, and
the glob crate. -/
structure Ctx where
  readFile : String → Except String String
  parseToml : String → Except String Toml
  globFn : GlobFn

/-- Mirror of `read_file` (src/cargo.rs lines 10-28); the open and read
failure cases are collapsed into the oracle's error. -/
def read_file (ctx : Ctx) (path : String) : Except Error String :=
  match ctx.readFile path with
  | .error e => .error { kind := .IoError e, message := "Failed to open file \"" ++ path ++ "\"" }
  | .ok content => .ok content

/-- The parse step of `CargoToml::from_path` (lines 261-267). -/
def parseManifest (ctx : Ctx) (path : String) (content : String) : Except Error Toml :=
  match ctx.parseToml content with
  | .error e => .error { kind := .ParseError e, message := "Failed to parse \"" ++ path ++ "\"" }
  | .ok v => .ok v

/-- The `exclude` extraction in `Workspace::try_from` (lines 152-157):
default empty, converted as `Vec<String>` otherwise. -/
def workspaceExcludes (kvs : List (String × Toml)) : Except Error (List String) :=
  match Toml.lookup kvs "exclude" with
  | none => .ok []
  | some e =>
      match tryIntoStringList e with
      | .error msg => .error { kind := .ParseError msg, message := "Failed to convert workspace excludes" }
      | .ok xs => .ok xs

/-- The `members` pattern extraction in `Workspace::try_from` (lines 158-161). -/
def workspacePatterns (membersVal : Toml) : Except Error (List String) :=
  match tryIntoStringList membersVal with
  | .error msg => .error { kind := .ParseError msg, message := "Failed to convert workspace members" }
  | .ok xs => .ok xs

/-- The workspace `metadata` extraction (lines 197-203): empty commands when
the key is absent. -/
def workspaceMetadata (kvs : List (String × Toml)) : Except Error Metadata :=
  match Toml.lookup kvs "metadata" with
  | some v => Metadata.tryFrom v
  | none => .ok { commands := [] }

/-- Member classification (lines 163-182): classify `<dir>/Cargo.toml` for
each resolved path; non-`Package` results are rejected.  `fp` is the
recursive `CargoToml::from_path`; `none` models running out of fuel. -/
def memberPackages (fp : String → Option (Except Error CargoToml)) :
    List String → Option (Except Error (List Package))
  | [] => some (.ok [])
  | path :: rest =>
      match fp (path ++ "/Cargo.toml") with
      | none => none
      | some (.error e) => some (.error e)
      | some (.ok ct) =>
          match ct with
          | .package _ md =>
              match memberPackages fp rest with
              | none => none
              | some (.error e) => some (.error e)
              | some (.ok ps) => some (.ok ({ metadata := md } :: ps))
          | _ =>
              some (.error { kind := .MalformedManifest "Only package members are currently supported",
                             message := "Failed to convert workspace" })

/-- The `members` computation in `Workspace::try_from` (lines 150-195).  The
outer `Except` layer is the function's own early return (`?` on excludes,
patterns and `extend_globs`); the inner one is the `members : Result<...>`
*value* the Rust code holds on to and only inspects after the metadata. -/
def workspaceMembers (globFn : GlobFn) (fp : String → Option (Except Error CargoToml))
    (kvs : List (String × Toml)) : Option (Except Error (Except Error (List Package))) :=
  match Toml.lookup kvs "members" with
  | none =>
      some (.ok (.error { kind := .MalformedManifest "Workspace does not contain members",
                          message := "Failed to convert workspace" }))
  | some mv =>
      match mv with
      | .arr _ =>
          match workspaceExcludes kvs with
          | .error e => some (.error e)
          | .ok excludes =>
              match workspacePatterns mv with
              | .error e => some (.error e)
              | .ok patterns =>
                  match extend_globs globFn patterns excludes with
                  | .error e => some (.error e)
                  | .ok pathBufs =>
                      match memberPackages fp pathBufs with
                      | none => none
                      | some res => some (.ok res)
      | _ =>
          some (.ok (.error { kind := .MalformedManifest "Workspace members is not an array",
                              message := "Failed to convert workspace" }))

/-- Mirror of `impl TryFrom<toml::Value> for Workspace` (lines 145-218),
parameterized by the recursive manifest loader `fp`. -/
def Workspace.tryFromAux (globFn : GlobFn) (fp : String → Option (Except Error CargoToml))
    (value : Toml) : Option (Except Error Workspace) :=
  match value with
  | .table kvs =>
      match workspaceMembers globFn fp kvs with
      | none => none
      | some (.error e) => some (.error e)
      | some (.ok members) =>
          match workspaceMetadata kvs with
          | .error e => some (.error e)
          | .ok metadata =>
              match members with
              | .error e => .some (.error e)
              | .ok ms => some (.ok { members := ms, metadata := metadata })
  | _ =>
      some (.error { kind := .MalformedManifest "Workspace is not a table",
                     message := "Failed to convert workspace" })

/-- The `package` extraction of `CargoToml::from_path` (lines 269-274): the
conversion error early-returns before the workspace is examined. -/
def packageLookup (kvs : List (String × Toml)) : Except Error (Option Package) :=
  match Toml.lookup kvs "package" with
  | some pv =>
      match Package.tryFrom pv with
      | .error e => .error e
      | .ok pkg => .ok (some pkg)
  | none => .ok none

/-- The classification of a parsed document (lines 268-311), parameterized by
the workspace converter. -/
def classifyValue (wsTry : Toml → Option (Except Error Workspace)) (path : String)
    (value : Toml) : Option (Except Error CargoToml) :=
  match value with
  | .table kvs =>
      match packageLookup kvs with
      | .error e => some (.error e)
      | .ok pkgOpt =>
          match Toml.lookup kvs "workspace" with
          | some wv =>
              match wsTry wv with
              | none => none
              | some (.error e) => some (.error e)
              | some (.ok ws) =>
                  match pkgOpt with
                  | some pkg => some (.ok (.rootPackage path pkg ws))
                  | none => some (.ok (.virtualManifest path ws))
          | none =>
              match pkgOpt with
              | some pkg => some (.ok (.package path pkg.metadata))
              | none =>
                  some (.error { kind := .MalformedManifest path,
                                 message := "Manifest does not contain neither package or workspace" })
  | _ =>
      some (.error { kind := .MalformedManifest path, message := "Manifest is not a table" })

/-- Mirror of `CargoToml::from_path` (src/cargo.rs lines 259-341).  The fuel
bounds the recursion through workspace members; `none` means the fuel ran
out (the Rust code would still be recursing). -/
def CargoToml.from_path (ctx : Ctx) : Nat → String → Option (Except Error CargoToml)
  | 0, _ => none
  | fuel + 1, path =>
      match read_file ctx path with
      | .error e => some (.error e)
      | .ok content =>
          match parseManifest ctx path content with
          | .error e => some (.error e)
          | .ok value =>
              classifyValue
                (Workspace.tryFromAux ctx.globFn (fun p => CargoToml.from_path ctx fuel p))
                path value

/-- Mirror of `Workspace::try_from` with the recursive loader instantiated. -/
def Workspace.tryFrom (ctx : Ctx) (fuel : Nat) (value : Toml) : Option (Except Error Workspace) :=
  Workspace.tryFromAux ctx.globFn (fun p => CargoToml.from_path ctx fuel p) value

/-- Mirror of `impl fmt::Display for Error` (src/cargo.rs lines 749-766). -/
def Error.display (e : Error) : String :=
  match e.kind with
  | .IoError reason => e.message ++ ": " ++ reason
  | .ParseError reason => e.message ++ ": " ++ reason
  | .PatternError reason => e.message ++ ": " ++ reason
  | .GlobError reason => e.message ++ ": " ++ reason
  | .MissingCommand command => "Command \"" ++ command ++ "\" not found in Cargo.toml"
  | .MissingWorkspace path => "Workspace not found in \"" ++ path ++ "\""
  | .NotPackage => "Cargo.toml does not contain a package"
  | .NotRootPackage => "Cargo.toml does not contain a root package"
  | .NotVirtualManifest => "Cargo.toml does not contain a virtual manifest"
  | .PathBufConversionError path => e.message ++ ": " ++ path
  | .MalformedManifest path => "Malformed manifest \"" ++ path ++ "\": " ++ e.message

/-- Mirror of the live `get_commands` in src/main.rs (lines 77-112): loads
and classifies `Cargo.toml`, then returns the (still empty) command vector;
the command-table lookup is entirely commented out. -/
def get_commands (ctx : Ctx) (fuel : Nat) (command : String) :
    Option (Except String (List (String × String))) :=
  match CargoToml.from_path ctx fuel "Cargo.toml" with
  | none => none
  | some (.error e) => some (.error (Error.display e))
  | some (.ok _) => some (.ok [])

namespace Draft

/-!
The command registry exists in the source only as the commented-out
`GetCommands` drafts (src/cargo.rs lines 409-725); claims C8-C10 cite them
directly.  The structures there carry `metadata: Option<Metadata>` and
workspace members of type `Vec<Result<Package, Error>>`.
-/

/-- Draft `Package` (src/cargo.rs lines 445-450). -/
structure Package where
  path : String
  metadata : Option Metadata
deriving Repr

/-- `HashMap::get` on the commands map. -/
def lookupCommand (cargoCommands : List (String × String)) (name : String) : Option String :=
  match cargoCommands with
  | [] => none
  | (k, v) :: rest => if k == name then some v else lookupCommand rest name

/-- The `for name in names` loop shared by the draft `get_commands`
implementations (src/cargo.rs lines 464-477): a candidate equal to the
requested command but absent from the table aborts with `MissingCommand`;
present candidates are appended in candidate order. -/
def commandsLoop (cargoCommands : List (String × String)) (command : String) :
    List String → List (String × String) → Except Error (List (String × String))
  | [], acc => .ok acc
  | name :: rest, acc =>
      match lookupCommand cargoCommands name with
      | none =>
          if name == command then
            .error { kind := .MissingCommand command, message := "" }
          else
            commandsLoop cargoCommands command rest acc
      | some v => commandsLoop cargoCommands command rest (acc ++ [(name, v)])

/-- Draft `impl GetCommands for Package` (src/cargo.rs lines 452-484). -/
def Package.get_commands (self : Package) (command : String) :
    Except Error (List (String × String)) :=
  match self.metadata with
  | none => .ok []
  | some metadata =>
      commandsLoop metadata.commands command
        ["pre" ++ command, command, "post" ++ command] []

/-- Draft `Workspace` (src/cargo.rs lines 542-546). -/
structure Workspace where
  members : List (Except Error Package)
  metadata : Option Metadata
deriving Repr

/-- The member half of the draft `Workspace::get_commands` (lines 574-579):
`Err` members are skipped, a member's own `get_commands` error is fatal. -/
def memberCommands (command : String) :
    List (Except Error Package) → Except Error (List (String × String))
  | [] => .ok []
  | .error _ :: rest => memberCommands command rest
  | .ok package :: rest =>
      match Package.get_commands package command with
      | .error e => .error e
      | .ok pcs =>
          match memberCommands command rest with
          | .error e => .error e
          | .ok tail => .ok (pcs ++ tail)

/-- Draft `impl GetCommands for Workspace` (src/cargo.rs lines 548-585). -/
def Workspace.get_commands (self : Workspace) (command : String) :
    Except Error (List (String × String)) :=
  match self.metadata with
  | none => .ok []
  | some metadata =>
      match commandsLoop metadata.commands command
          ["pre" ++ command, command, "post" ++ command] [] with
      | .error e => .error e
      | .ok own =>
          match memberCommands command self.members with
          | .error e => .error e
          | .ok ms => .ok (own ++ ms)

/-- Draft `RootPackage` (src/cargo.rs lines 504-509). -/
structure RootPackage where
  path : String
  workspace : Workspace
  package : Package
deriving Repr

/-- Draft `impl GetCommands for RootPackage` (src/cargo.rs lines 511-518):
note the `?` on both scopes — errors, `MissingCommand` included, propagate. -/
def RootPackage.get_commands (self : RootPackage) (command : String) :
    Except Error (List (String × String)) :=
  match Package.get_commands self.package command with
  | .error e => .error e
  | .ok pcs =>
      match Workspace.get_commands self.workspace command with
      | .error e => .error e
      | .ok wcs => .ok (pcs ++ wcs)

end Draft

/-! ## Concrete oracles used by the witnesses and counterexamples -/

/-- Concrete glob oracle for the resolver witnesses: one pattern matching two
paths, a second pattern matching one, a syntactically bad pattern, and one
whose iteration hits an unreadable entry. -/
def globW : GlobFn := fun pat =>
  if pat == "crates/*" then .ok [.ok "crates/a", .ok "crates/b"]
  else if pat == "tools/*" then .ok [.ok "tools/x"]
  else if pat == "[" then .error "bad pattern"
  else if pat == "perm/*" then .ok [.ok "perm/ok", .error "permission denied"]
  else .ok []

/-- Context whose manifest is a table with neither section. -/
def ctxNeither : Ctx :=
  { readFile := fun _ => .ok "x",
    parseToml := fun _ => .ok (.table []),
    globFn := fun _ => .ok [] }

/-- Context with a well-formed package manifest carrying a `build` command. -/
def ctxPkg : Ctx :=
  { readFile := fun _ => .ok "x",
    parseToml := fun _ =>
      .ok (.table [("package",
        .table [("metadata", .table [("commands", .table [("build", .str "echo hi")])])])]),
    globFn := fun _ => .ok [] }

/-- A member loader whose only known manifest is a virtual manifest. -/
def fpVirtual : String → Option (Except Error CargoToml) := fun p =>
  if p == "m/a/Cargo.toml" then
    some (.ok (.virtualManifest "m/a/Cargo.toml" { members := [], metadata := { commands := [] } }))
  else none

/-- Glob oracle for the C6 witness. -/
def globM : GlobFn := fun pat =>
  if pat == "m/*" then .ok [.ok "m/a"] else .ok []

/-- Context whose manifest has a `package` table with no `metadata` key. -/
def ctxPkgNoMeta : Ctx :=
  { readFile := fun _ => .ok "x",
    parseToml := fun _ => .ok (.table [("package", .table [("name", .str "foo")])]),
    globFn := fun _ => .ok [] }

/-! ## Path resolver theorems (claims C3, C4, C5) -/

/-- Helper: `extend_globs` is the concatenation, in pattern order, of each
pattern's matches after exclusion filtering (first pattern error wins). -/
theorem extend_globs_eq_mapM (globFn : GlobFn) (patterns excludes : List String) :
    extend_globs globFn patterns excludes =
      (patterns.mapM (extend_glob globFn)).map
        (fun ls => (ls.map (fun ms => ms.filter (fun p => !excludedBy excludes p))).flatten) := by
  induction patterns with
  | nil => rfl
  | cons pat rest ih =>
    rw [extend_globs, List.mapM_cons]
    cases heg : extend_glob globFn pat with
    | error e => simp [heg, Except.map, Bind.bind, Except.bind]
    | ok pbs =>
      rw [ih]
      cases hrest : rest.mapM (extend_glob globFn) with
      | error e => simp [heg, hrest, Except.map, Bind.bind, Except.bind]
      | ok ls =>
        simp [heg, hrest, Except.map, Bind.bind, Except.bind, Pure.pure, Except.pure]

/-- Helper: the resolver's value only depends on the glob oracle's answers on
the requested patterns (determinism for a fixed filesystem state). -/
theorem extend_globs_congr (globFn globFn' : GlobFn) (patterns excludes : List String)
    (hagree : ∀ pat ∈ patterns, globFn pat = globFn' pat) :
    extend_globs globFn patterns excludes = extend_globs globFn' patterns excludes := by
  induction patterns with
  | nil => rfl
  | cons pat rest ih =>
    have hpat : globFn pat = globFn' pat := hagree pat (by simp)
    have hg : extend_glob globFn pat = extend_glob globFn' pat := by
      rw [extend_glob, extend_glob, hpat]
    rw [extend_globs, extend_globs, hg, ih (fun q hq => hagree q (List.mem_cons_of_mem _ hq))]

/-- Helper: if the whole resolve succeeded, every pattern's own expansion
succeeded (errors are fatal, never skipped). -/
theorem extend_glob_ok_of_globs_ok (globFn : GlobFn) (patterns excludes ps : List String)
    (h : extend_globs globFn patterns excludes = .ok ps) :
    ∀ pat ∈ patterns, ∃ ms, extend_glob globFn pat = .ok ms := by
  induction patterns generalizing ps with
  | nil => intro pat hpat; cases hpat
  | cons q rest ih =>
    rw [extend_globs] at h
    cases heg : extend_glob globFn q with
    | error e => rw [heg] at h; cases h
    | ok pbs =>
      rw [heg] at h
      cases hrest : extend_globs globFn rest excludes with
      | error e => rw [hrest] at h; cases h
      | ok tail =>
        intro pat hpat
        rcases List.mem_cons.mp hpat with rfl | hpat
        · exact ⟨pbs, heg⟩
        · exact ih tail hrest pat hpat

/-- Claim C3: a matched path is dropped from `extend_globs`'s result exactly
when it is `PathBuf`-equal (normalized-component equality) to some entry of
the excludes, and consequently no excluded path ever appears in the resolved
set. -/
theorem extend_globs_exclude_law (globFn : GlobFn) (patterns excludes ps : List String)
    (h : extend_globs globFn patterns excludes = .ok ps) (p : String) :
    (p ∈ ps ↔ ((∃ pat ∈ patterns, ∃ ms, extend_glob globFn pat = Except.ok ms ∧ p ∈ ms) ∧
      excludedBy excludes p = false)) ∧
    (∀ e ∈ excludes, pathEq e p = true → p ∉ ps) := by
  have hmem : p ∈ ps ↔
      ((∃ pat ∈ patterns, ∃ ms, extend_glob globFn pat = Except.ok ms ∧ p ∈ ms) ∧
        excludedBy excludes p = false) := by
    induction patterns generalizing ps with
    | nil =>
      rw [extend_globs] at h
      cases h
      simp
    | cons pat rest ih =>
      rw [extend_globs] at h
      cases heg : extend_glob globFn pat with
      | error e => rw [heg] at h; cases h
      | ok pbs =>
        rw [heg] at h
        cases hrest : extend_globs globFn rest excludes with
        | error e => rw [hrest] at h; cases h
        | ok tail =>
          rw [hrest] at h
          cases h
          have ihm := ih tail hrest
          constructor
          · intro hp
            rcases List.mem_append.mp hp with hp | hp
            · have hf := List.mem_filter.mp hp
              refine ⟨⟨pat, List.mem_cons_self _ _, pbs, heg, hf.1⟩, ?_⟩
              simpa using hf.2
            · rcases ihm.mp hp with ⟨⟨pat', hpat', ms, hms, hpms⟩, hex⟩
              exact ⟨⟨pat', List.mem_cons_of_mem _ hpat', ms, hms, hpms⟩, hex⟩
          · rintro ⟨⟨pat', hpat', ms, hms, hpms⟩, hex⟩
            rcases List.mem_cons.mp hpat' with rfl | hpat'
            · rw [heg] at hms
              injection hms with hms
              subst hms
              exact List.mem_append.mpr (Or.inl (List.mem_filter.mpr ⟨hpms, by simp [hex]⟩))
            · exact List.mem_append.mpr (Or.inr (ihm.mpr ⟨⟨pat', hpat', ms, hms, hpms⟩, hex⟩))
  refine ⟨hmem, ?_⟩
  intro e he hpe hp
  have hfalse := (hmem.mp hp).2
  have htrue : excludedBy excludes p = true := by
    rw [excludedBy, List.any_eq_true]
    exact ⟨e, he, hpe⟩
  rw [htrue] at hfalse
  cases hfalse


/-- Witness for C3 at a concrete oracle: `crates/b` is excluded, `crates/a`
survives. -/
theorem extend_globs_exclude_law_witness :
    ((("crates/a" : String) ∈ (["crates/a", "tools/x"] : List String)) ↔
      ((∃ pat ∈ (["crates/*", "tools/*"] : List String), ∃ ms,
          extend_glob globW pat = Except.ok ms ∧ ("crates/a" : String) ∈ ms) ∧
        excludedBy ["crates/b"] "crates/a" = false)) ∧
    (∀ e ∈ (["crates/b"] : List String), pathEq e "crates/a" = true →
      ("crates/a" : String) ∉ (["crates/a", "tools/x"] : List String)) :=
  extend_globs_exclude_law globW ["crates/*", "tools/*"] ["crates/b"]
    ["crates/a", "tools/x"] (by rfl) "crates/a"

/-- Claim C4: the resolver's output is the concatenation, in pattern order,
of each pattern's matches after exclusion filtering, and its value depends
only on the glob oracle's answers on the given patterns (determinism for a
fixed filesystem state). -/
theorem extend_globs_concat_deterministic (globFn globFn' : GlobFn)
    (patterns excludes : List String)
    (hagree : ∀ pat ∈ patterns, globFn pat = globFn' pat) :
    extend_globs globFn patterns excludes =
      (patterns.mapM (extend_glob globFn)).map
        (fun ls => (ls.map (fun ms => ms.filter (fun p => !excludedBy excludes p))).flatten) ∧
    extend_globs globFn patterns excludes = extend_globs globFn' patterns excludes :=
  ⟨extend_globs_eq_mapM globFn patterns excludes,
   extend_globs_congr globFn globFn' patterns excludes hagree⟩

/-- Witness for C4 at the concrete oracle. -/
theorem extend_globs_concat_deterministic_witness :
    extend_globs globW ["crates/*", "tools/*"] ["crates/b"] =
      ((["crates/*", "tools/*"] : List String).mapM (extend_glob globW)).map
        (fun ls => (ls.map (fun ms => ms.filter (fun p => !excludedBy ["crates/b"] p))).flatten) ∧
    extend_globs globW ["crates/*", "tools/*"] ["crates/b"] =
      extend_globs globW ["crates/*", "tools/*"] ["crates/b"] :=
  extend_globs_concat_deterministic globW globW ["crates/*", "tools/*"] ["crates/b"]
    (fun _ _ => rfl)

/-- Helper: iterating entries fails with the first entry error, wrapped as a
`GlobError`. -/
theorem collectEntries_first_error (pres : List String) (e : String)
    (rest : List (Except String String)) :
    collectEntries (pres.map Except.ok ++ Except.error e :: rest) =
      .error { kind := .GlobError e, message := "Error reading path for globbing" } := by
  induction pres with
  | nil => rfl
  | cons p ps ih => simp [collectEntries, ih, Except.map]

/-- Counterexample to C5 as stated: a syntactically invalid pattern fails
with kind `PatternError`, not `GlobError`. -/
theorem extend_glob_pattern_error_not_glob_error :
    extend_glob globW "[" =
      .error { kind := .PatternError "bad pattern", message := "Invalid glob pattern \"[\"" } ∧
    isGlobErrorKind (extend_glob globW "[") = false :=
  ⟨rfl, rfl⟩

/-- Claim C5 (amended): an invalid pattern fails with `PatternError`, an
unresolvable matched entry fails with `GlobError`, and in either case the
error is fatal — a successful resolve implies every pattern expanded without
error (no partial result, no skipping). -/
theorem extend_glob_error_policy (globFn : GlobFn) (pattern1 pattern2 e1 e2 : String)
    (pres : List String) (rest : List (Except String String))
    (patterns excludes ps : List String) (pat : String)
    (h1 : globFn pattern1 = .error e1)
    (h2 : globFn pattern2 = .ok (pres.map Except.ok ++ Except.error e2 :: rest))
    (h3 : extend_globs globFn patterns excludes = .ok ps)
    (hpat : pat ∈ patterns) :
    extend_glob globFn pattern1 =
      .error { kind := .PatternError e1, message := "Invalid glob pattern \"" ++ pattern1 ++ "\"" } ∧
    extend_glob globFn pattern2 =
      .error { kind := .GlobError e2, message := "Error reading path for globbing" } ∧
    ∃ ms, extend_glob globFn pat = .ok ms := by
  refine ⟨?_, ?_, extend_glob_ok_of_globs_ok globFn patterns excludes ps h3 pat hpat⟩
  · rw [extend_glob, h1]
  · rw [extend_glob, h2]
    exact collectEntries_first_error pres e2 rest

/-- Witness for the amended C5 at the concrete oracle. -/
theorem extend_glob_error_policy_witness :
    extend_glob globW "[" =
      .error { kind := .PatternError "bad pattern", message := "Invalid glob pattern \"[\"" } ∧
    extend_glob globW "perm/*" =
      .error { kind := .GlobError "permission denied",
               message := "Error reading path for globbing" } ∧
    ∃ ms, extend_glob globW "tools/*" = .ok ms :=
  extend_glob_error_policy globW "[" "perm/*" "bad pattern" "permission denied"
    ["perm/ok"] [] ["crates/*", "tools/*"] ["crates/b"] ["crates/a", "tools/x"] "tools/*"
    (by rfl) (by rfl) (by rfl) (by simp)

/-! ## Command registry theorems (claims C8, C9, C10), against the
commented `GetCommands` drafts cited by those claims. -/

/-- Helper: the hook loop only consults the table through `lookupCommand`,
so tables with the same lookup function (e.g. permutations of unique keys)
give the same result. -/
theorem commandsLoop_congr (tbl tbl2 : List (String × String)) (command : String)
    (hsame : ∀ k, Draft.lookupCommand tbl k = Draft.lookupCommand tbl2 k)
    (names : List String) (acc : List (String × String)) :
    Draft.commandsLoop tbl command names acc = Draft.commandsLoop tbl2 command names acc := by
  induction names generalizing acc with
  | nil => rfl
  | cons name rest ih =>
    rw [Draft.commandsLoop, Draft.commandsLoop, ← hsame name]
    cases hl : Draft.lookupCommand tbl name with
    | none => by_cases hc : (name == command) = true <;> simp [hc, ih]
    | some v => simp [ih]

/-- Helper: a nonempty prefix changes a string, so the `pre`/`post`
candidates never collide with the main command name. -/
theorem prefix_append_ne (pre X : String) (h : 0 < pre.length) : ((pre ++ X) == X) = false := by
  rw [beq_eq_false_iff_ne]
  intro heq
  have hlen := congrArg String.length heq
  rw [String.length_append] at hlen
  omega

/-- Claim C8: with `preX`, `X`, `postX` all present the draft package lookup
returns exactly the triple in the fixed order, the result depends only on the
table's lookup function (hence not on declaration order), and with `X` alone
it is the single main entry. -/
theorem draft_package_hook_order (p1 p2 p3 : String) (tbl tbl2 tbl3 : List (String × String))
    (X a b c b3 : String)
    (hpre : Draft.lookupCommand tbl ("pre" ++ X) = some a)
    (hmain : Draft.lookupCommand tbl X = some b)
    (hpost : Draft.lookupCommand tbl ("post" ++ X) = some c)
    (hsame : ∀ k, Draft.lookupCommand tbl k = Draft.lookupCommand tbl2 k)
    (hpre3 : Draft.lookupCommand tbl3 ("pre" ++ X) = none)
    (hmain3 : Draft.lookupCommand tbl3 X = some b3)
    (hpost3 : Draft.lookupCommand tbl3 ("post" ++ X) = none) :
    Draft.Package.get_commands { path := p1, metadata := some { commands := tbl } } X =
      .ok [("pre" ++ X, a), (X, b), ("post" ++ X, c)] ∧
    Draft.Package.get_commands { path := p1, metadata := some { commands := tbl } } X =
      Draft.Package.get_commands { path := p2, metadata := some { commands := tbl2 } } X ∧
    Draft.Package.get_commands { path := p3, metadata := some { commands := tbl3 } } X =
      .ok [(X, b3)] := by
  have hpreX := prefix_append_ne "pre" X (by decide)
  have hpostX := prefix_append_ne "post" X (by decide)
  refine ⟨?_, ?_, ?_⟩
  · simp [Draft.Package.get_commands, Draft.commandsLoop, hpre, hmain, hpost]
  · simp only [Draft.Package.get_commands]
    exact commandsLoop_congr tbl tbl2 X hsame _ _
  · simp [Draft.Package.get_commands, Draft.commandsLoop, hpre3, hmain3, hpost3, hpreX, hpostX]

/-- Witness for C8 at a concrete table declared in post/main/pre order. -/
theorem draft_package_hook_order_witness :
    Draft.Package.get_commands
      { path := "p", metadata := some { commands := [("posttest", "3"), ("test", "2"), ("pretest", "1")] } }
      "test" = .ok [("pretest", "1"), ("test", "2"), ("posttest", "3")] ∧
    Draft.Package.get_commands
      { path := "p", metadata := some { commands := [("posttest", "3"), ("test", "2"), ("pretest", "1")] } }
      "test" =
    Draft.Package.get_commands
      { path := "q", metadata := some { commands := [("posttest", "3"), ("test", "2"), ("pretest", "1")] } }
      "test" ∧
    Draft.Package.get_commands
      { path := "r", metadata := some { commands := [("test", "2")] } }
      "test" = .ok [("test", "2")] :=
  draft_package_hook_order "p" "q" "r"
    [("posttest", "3"), ("test", "2"), ("pretest", "1")]
    [("posttest", "3"), ("test", "2"), ("pretest", "1")]
    [("test", "2")]
    "test" "1" "2" "3" "2"
    (by rfl) (by rfl) (by rfl)
    (fun _ => rfl)
    (by rfl) (by rfl) (by rfl)

/-- Claim C9: with a command table present, the draft package lookup fails —
and fails precisely with `MissingCommand X` — iff the exact key `X` is absent
from the table; when `X` is present the result is a success, whatever
`preX`/`postX` are. -/
theorem draft_package_missing_command_iff (p : String) (tbl : List (String × String))
    (X : String) :
    ((Draft.Package.get_commands { path := p, metadata := some { commands := tbl } } X =
        .error { kind := .MissingCommand X, message := "" }) ↔
      Draft.lookupCommand tbl X = none) ∧
    (∀ b, Draft.lookupCommand tbl X = some b →
      ∃ res, Draft.Package.get_commands { path := p, metadata := some { commands := tbl } } X =
        .ok res) := by
  have hpreX := prefix_append_ne "pre" X (by decide)
  have hpostX := prefix_append_ne "post" X (by decide)
  cases hp : Draft.lookupCommand tbl ("pre" ++ X) <;>
    cases hm : Draft.lookupCommand tbl X <;>
      cases hq : Draft.lookupCommand tbl ("post" ++ X) <;>
        simp [Draft.Package.get_commands, Draft.commandsLoop, hp, hm, hq, hpreX, hpostX]

/-- Witness for C9: `pretest`/`posttest` alone do not satisfy a `test`
request. -/
theorem draft_package_missing_command_iff_witness :
    ((Draft.Package.get_commands
        { path := "p", metadata := some { commands := [("pretest", "1"), ("posttest", "3")] } }
        "test" = .error { kind := .MissingCommand "test", message := "" }) ↔
      Draft.lookupCommand [("pretest", "1"), ("posttest", "3")] "test" = none) ∧
    (∀ b, Draft.lookupCommand [("pretest", "1"), ("posttest", "3")] "test" = some b →
      ∃ res, Draft.Package.get_commands
        { path := "p", metadata := some { commands := [("pretest", "1"), ("posttest", "3")] } }
        "test" = .ok res) :=
  draft_package_missing_command_iff "p" [("pretest", "1"), ("posttest", "3")] "test"

/-- Counterexample to C10 as stated: the draft `RootPackage::get_commands`
uses `?` on the package scope, so a package-level `MissingCommand` is
propagated, not absorbed — even though the workspace scope does provide the
command. -/
theorem draft_root_missing_not_absorbed :
    Draft.RootPackage.get_commands
      { path := "Cargo.toml",
        workspace := { members := [], metadata := some { commands := [("test", "echo hi")] } },
        package := { path := "Cargo.toml", metadata := some { commands := [] } } } "test" =
      .error { kind := .MissingCommand "test", message := "" } ∧
    Draft.RootPackage.get_commands
      { path := "Cargo.toml",
        workspace := { members := [], metadata := some { commands := [("test", "echo hi")] } },
        package := { path := "Cargo.toml", metadata := some { commands := [] } } } "test" ≠
      .ok [("test", "echo hi")] := by
  have h1 : Draft.RootPackage.get_commands
      { path := "Cargo.toml",
        workspace := { members := [], metadata := some { commands := [("test", "echo hi")] } },
        package := { path := "Cargo.toml", metadata := some { commands := [] } } } "test" =
      .error { kind := .MissingCommand "test", message := "" } := rfl
  refine ⟨h1, ?_⟩
  rw [h1]
  simp

/-- Claim C10 (amended): the draft RootPackage aggregation concatenates the
package scope's result before the workspace scope's, but any error —
`MissingCommand` included — from either scope (the package scope, or the
workspace scope after a successful package scope) propagates unchanged
instead of being absorbed, and when both scopes lack a metadata table the
aggregation returns the empty list rather than `MissingCommand`. -/
theorem draft_root_aggregation (r r2 r3 r4 : Draft.RootPackage) (X : String)
    (ps ws ps4 : List (String × String)) (e e4 : Error)
    (hp : Draft.Package.get_commands r.package X = .ok ps)
    (hw : Draft.Workspace.get_commands r.workspace X = .ok ws)
    (he : Draft.Package.get_commands r2.package X = .error e)
    (hp4 : Draft.Package.get_commands r4.package X = .ok ps4)
    (hw4 : Draft.Workspace.get_commands r4.workspace X = .error e4)
    (hm : r3.package.metadata = none)
    (hwm : r3.workspace.metadata = none) :
    Draft.RootPackage.get_commands r X = .ok (ps ++ ws) ∧
    Draft.RootPackage.get_commands r2 X = .error e ∧
    Draft.RootPackage.get_commands r4 X = .error e4 ∧
    Draft.RootPackage.get_commands r3 X = .ok [] := by
  refine ⟨?_, ?_, ?_, ?_⟩
  · simp only [Draft.RootPackage.get_commands, hp, hw]
  · simp only [Draft.RootPackage.get_commands, he]
  · simp only [Draft.RootPackage.get_commands, hp4, hw4]
  · simp [Draft.RootPackage.get_commands, Draft.Package.get_commands,
      Draft.Workspace.get_commands, hm, hwm]

/-- Witness for the amended C10: package `test` before workspace `test`;
propagated package-scope error; propagated workspace-scope error after a
successful package scope; metadata-less scopes give the empty list. -/
theorem draft_root_aggregation_witness :
    Draft.RootPackage.get_commands
      { path := "a",
        workspace := { members := [], metadata := some { commands := [("test", "ws")] } },
        package := { path := "a", metadata := some { commands := [("test", "pkg")] } } } "test" =
      .ok ([("test", "pkg")] ++ [("test", "ws")]) ∧
    Draft.RootPackage.get_commands
      { path := "b",
        workspace := { members := [], metadata := some { commands := [("test", "ws")] } },
        package := { path := "b", metadata := some { commands := [] } } } "test" =
      .error { kind := .MissingCommand "test", message := "" } ∧
    Draft.RootPackage.get_commands
      { path := "d",
        workspace := { members := [], metadata := some { commands := [] } },
        package := { path := "d", metadata := some { commands := [("test", "pkg")] } } } "test" =
      .error { kind := .MissingCommand "test", message := "" } ∧
    Draft.RootPackage.get_commands
      { path := "c",
        workspace := { members := [], metadata := none },
        package := { path := "c", metadata := none } } "test" = .ok [] :=
  draft_root_aggregation
    { path := "a",
      workspace := { members := [], metadata := some { commands := [("test", "ws")] } },
      package := { path := "a", metadata := some { commands := [("test", "pkg")] } } }
    { path := "b",
      workspace := { members := [], metadata := some { commands := [("test", "ws")] } },
      package := { path := "b", metadata := some { commands := [] } } }
    { path := "c",
      workspace := { members := [], metadata := none },
      package := { path := "c", metadata := none } }
    { path := "d",
      workspace := { members := [], metadata := some { commands := [] } },
      package := { path := "d", metadata := some { commands := [("test", "pkg")] } } }
    "test" [("test", "pkg")] [("test", "ws")] [("test", "pkg")]
    { kind := .MissingCommand "test", message := "" }
    { kind := .MissingCommand "test", message := "" }
    (by rfl) (by rfl) (by rfl) (by rfl) (by rfl) (by rfl) (by rfl)

/-! ## Manifest classification theorems (claims C1, C2, C6, C7) -/

/-- Claim C1: classifying a manifest whose top level is not a table, or is a
table with neither a `package` nor a `workspace` section, fails with
`MalformedManifest`; whenever classification succeeds the resulting variant
is exactly determined by which of the two sections are present. -/
theorem from_path_classification (ctx : Ctx) (fuel : Nat) (path content : String)
    (v : Toml) (kvs : List (String × Toml)) (r : Except Error CargoToml) (ct : CargoToml)
    (hread : ctx.readFile path = .ok content)
    (hparse : ctx.parseToml content = .ok v)
    (hrun : CargoToml.from_path ctx (fuel + 1) path = some r) :
    ((∀ kvs0, v ≠ .table kvs0) →
      r = .error { kind := .MalformedManifest path, message := "Manifest is not a table" }) ∧
    (v = .table kvs → Toml.lookup kvs "package" = none → Toml.lookup kvs "workspace" = none →
      r = .error { kind := .MalformedManifest path,
                   message := "Manifest does not contain neither package or workspace" }) ∧
    (v = .table kvs → r = .ok ct →
      ((ct.isRootPackage = true ↔
          (Toml.lookup kvs "package").isSome ∧ (Toml.lookup kvs "workspace").isSome) ∧
       (ct.isVirtualManifest = true ↔
          Toml.lookup kvs "package" = none ∧ (Toml.lookup kvs "workspace").isSome) ∧
       (ct.isPackage = true ↔
          (Toml.lookup kvs "package").isSome ∧ Toml.lookup kvs "workspace" = none))) := by
  have hcl : classifyValue
      (Workspace.tryFromAux ctx.globFn (fun p => CargoToml.from_path ctx fuel p)) path v =
      some r := by
    rw [CargoToml.from_path] at hrun
    simp only [read_file, hread, parseManifest, hparse] at hrun
    exact hrun
  refine ⟨?_, ?_, ?_⟩
  · intro hnt
    cases v with
    | table kvs0 => exact absurd rfl (hnt kvs0)
    | str s =>
      simp only [classifyValue] at hcl
      exact (Option.some.inj hcl).symm
    | int n =>
      simp only [classifyValue] at hcl
      exact (Option.some.inj hcl).symm
    | boolean b =>
      simp only [classifyValue] at hcl
      exact (Option.some.inj hcl).symm
    | arr xs =>
      simp only [classifyValue] at hcl
      exact (Option.some.inj hcl).symm
  · rintro rfl hpk hws
    simp only [classifyValue, packageLookup, hpk, hws] at hcl
    exact (Option.some.inj hcl).symm
  · rintro rfl hok
    subst hok
    cases hpk : Toml.lookup kvs "package" with
    | none =>
      cases hws : Toml.lookup kvs "workspace" with
      | none =>
        simp only [classifyValue, packageLookup, hpk, hws] at hcl
        cases Option.some.inj hcl
      | some wv =>
        cases hw : Workspace.tryFromAux ctx.globFn (fun p => CargoToml.from_path ctx fuel p) wv with
        | none =>
          simp only [classifyValue, packageLookup, hpk, hws, hw] at hcl
          exact Option.noConfusion hcl
        | some res =>
          cases res with
          | error e =>
            simp only [classifyValue, packageLookup, hpk, hws, hw] at hcl
            cases Option.some.inj hcl
          | ok ws =>
            simp only [classifyValue, packageLookup, hpk, hws, hw] at hcl
            have hct := Except.ok.inj (Option.some.inj hcl)
            subst hct
            simp [CargoToml.isRootPackage, CargoToml.isVirtualManifest, CargoToml.isPackage,
              hpk, hws]
    | some pv =>
      cases hp : Package.tryFrom pv with
      | error e =>
        simp only [classifyValue, packageLookup, hpk, hp] at hcl
        cases Option.some.inj hcl
      | ok pkg =>
        cases hws : Toml.lookup kvs "workspace" with
        | none =>
          simp only [classifyValue, packageLookup, hpk, hp, hws] at hcl
          have hct := Except.ok.inj (Option.some.inj hcl)
          subst hct
          simp [CargoToml.isRootPackage, CargoToml.isVirtualManifest, CargoToml.isPackage,
            hpk, hws]
        | some wv =>
          cases hw : Workspace.tryFromAux ctx.globFn (fun p => CargoToml.from_path ctx fuel p) wv with
          | none =>
            simp only [classifyValue, packageLookup, hpk, hp, hws, hw] at hcl
            exact Option.noConfusion hcl
          | some res =>
            cases res with
            | error e =>
              simp only [classifyValue, packageLookup, hpk, hp, hws, hw] at hcl
              cases Option.some.inj hcl
            | ok ws =>
              simp only [classifyValue, packageLookup, hpk, hp, hws, hw] at hcl
              have hct := Except.ok.inj (Option.some.inj hcl)
              subst hct
              simp [CargoToml.isRootPackage, CargoToml.isVirtualManifest, CargoToml.isPackage,
                hpk, hws]


/-- Witness for C1 at the neither-section manifest. -/
theorem from_path_classification_witness :
    ((∀ kvs0, Toml.table [] ≠ .table kvs0) →
      (Except.error { kind := ErrorKind.MalformedManifest "Cargo.toml",
                      message := "Manifest does not contain neither package or workspace" } :
        Except Error CargoToml) =
      .error { kind := .MalformedManifest "Cargo.toml", message := "Manifest is not a table" }) ∧
    (Toml.table [] = .table [] → Toml.lookup [] "package" = none →
      Toml.lookup [] "workspace" = none →
      (Except.error { kind := ErrorKind.MalformedManifest "Cargo.toml",
                      message := "Manifest does not contain neither package or workspace" } :
        Except Error CargoToml) =
      .error { kind := .MalformedManifest "Cargo.toml",
               message := "Manifest does not contain neither package or workspace" }) ∧
    (Toml.table [] = .table [] →
      (Except.error { kind := ErrorKind.MalformedManifest "Cargo.toml",
                      message := "Manifest does not contain neither package or workspace" } :
        Except Error CargoToml) =
      .ok (.package "" { commands := [] }) →
      (((CargoToml.package "" { commands := [] }).isRootPackage = true ↔
          (Toml.lookup [] "package").isSome ∧ (Toml.lookup [] "workspace").isSome) ∧
       ((CargoToml.package "" { commands := [] }).isVirtualManifest = true ↔
          Toml.lookup [] "package" = none ∧ (Toml.lookup [] "workspace").isSome) ∧
       ((CargoToml.package "" { commands := [] }).isPackage = true ↔
          (Toml.lookup [] "package").isSome ∧ Toml.lookup [] "workspace" = none))) :=
  from_path_classification ctxNeither 0 "Cargo.toml" "x" (.table []) []
    (.error { kind := .MalformedManifest "Cargo.toml",
              message := "Manifest does not contain neither package or workspace" })
    (.package "" { commands := [] })
    (by rfl) (by rfl) (by rfl)

/-- Claim C2: whenever `Cargo.toml` parses and classifies successfully, the
live `get_commands` of src/main.rs returns `Ok` with the empty command list,
for every requested command name — so the main loop runs zero commands. -/
theorem get_commands_empty (ctx : Ctx) (fuel : Nat) (command : String) (ct : CargoToml)
    (h : CargoToml.from_path ctx fuel "Cargo.toml" = some (.ok ct)) :
    get_commands ctx fuel command = some (.ok []) := by
  simp only [get_commands, h]


/-- Witness for C2: even with `build` present in `metadata.commands`, the
live lookup returns no commands. -/
theorem get_commands_empty_witness :
    get_commands ctxPkg 1 "build" = some (.ok []) :=
  get_commands_empty ctxPkg 1 "build"
    (.package "Cargo.toml" { commands := [("build", "echo hi")] }) (by rfl)

/-- Helper: if every resolved member's manifest classifies and some member is
not a plain package, collecting the members fails with the only-package
`MalformedManifest` error. -/
theorem memberPackages_reject (fp : String → Option (Except Error CargoToml))
    (paths : List String)
    (hall : ∀ p ∈ paths, ∃ ct, fp (p ++ "/Cargo.toml") = some (.ok ct))
    (hbad : ∃ p ∈ paths, ∃ ct, fp (p ++ "/Cargo.toml") = some (.ok ct) ∧ ct.isPackage = false) :
    memberPackages fp paths =
      some (.error { kind := .MalformedManifest "Only package members are currently supported",
                     message := "Failed to convert workspace" }) := by
  induction paths with
  | nil =>
    rcases hbad with ⟨p, hp, _⟩
    cases hp
  | cons q rest ih =>
    obtain ⟨ctq, hq⟩ := hall q (List.mem_cons_self _ _)
    cases ctq with
    | package pa md =>
      rcases hbad with ⟨p, hp, ct, hct, hbadct⟩
      rcases List.mem_cons.mp hp with rfl | hp
      · rw [hq] at hct
        have h1 := Except.ok.inj (Option.some.inj hct)
        subst h1
        simp [CargoToml.isPackage] at hbadct
      · have hrest := ih (fun x hx => hall x (List.mem_cons_of_mem _ hx)) ⟨p, hp, ct, hct, hbadct⟩
        simp only [memberPackages, hq, hrest]
    | rootPackage pa pk ws =>
      simp only [memberPackages, hq]
    | virtualManifest pa ws =>
      simp only [memberPackages, hq]

/-- Claim C6: during workspace conversion each resolved member directory's
`<dir>/Cargo.toml` is classified, and if any member classifies as a root
package, virtual manifest or workspace — anything but a plain package — the
whole conversion fails with `MalformedManifest` ("Only package members are
currently supported") rather than skipping the member (stated for a
workspace table whose members, excludes, globs and metadata themselves
convert). -/
theorem workspace_rejects_nonpackage_member (globFn : GlobFn)
    (fp : String → Option (Except Error CargoToml)) (kvs : List (String × Toml))
    (mv : Toml) (excludes patterns pathBufs : List String) (md : Metadata)
    (hmv : Toml.lookup kvs "members" = some mv)
    (harr : ∃ xs, mv = .arr xs)
    (hex : workspaceExcludes kvs = .ok excludes)
    (hpat : workspacePatterns mv = .ok patterns)
    (hglob : extend_globs globFn patterns excludes = .ok pathBufs)
    (hmd : workspaceMetadata kvs = .ok md)
    (hall : ∀ p ∈ pathBufs, ∃ ct, fp (p ++ "/Cargo.toml") = some (.ok ct))
    (hbad : ∃ p ∈ pathBufs, ∃ ct, fp (p ++ "/Cargo.toml") = some (.ok ct) ∧
      ct.isPackage = false) :
    Workspace.tryFromAux globFn fp (.table kvs) =
      some (.error { kind := .MalformedManifest "Only package members are currently supported",
                     message := "Failed to convert workspace" }) := by
  obtain ⟨xs, rfl⟩ := harr
  have hmp := memberPackages_reject fp pathBufs hall hbad
  simp only [Workspace.tryFromAux, workspaceMembers, hmv, hex, hpat, hglob, hmp, hmd]


/-- Witness for C6: a member glob resolving to a directory whose manifest is
a virtual manifest makes the workspace conversion fail. -/
theorem workspace_rejects_nonpackage_member_witness :
    Workspace.tryFromAux globM fpVirtual (.table [("members", .arr [.str "m/*"])]) =
      some (.error { kind := .MalformedManifest "Only package members are currently supported",
                     message := "Failed to convert workspace" }) :=
  workspace_rejects_nonpackage_member globM fpVirtual [("members", .arr [.str "m/*"])]
    (.arr [.str "m/*"]) [] ["m/*"] ["m/a"] { commands := [] }
    (by rfl) ⟨[.str "m/*"], rfl⟩ (by rfl) (by rfl) (by rfl) (by rfl)
    (by
      intro p hp
      have hpa := List.mem_singleton.mp hp
      subst hpa
      exact ⟨.virtualManifest "m/a/Cargo.toml"
        { members := [], metadata := { commands := [] } }, rfl⟩)
    ⟨"m/a", by simp, .virtualManifest "m/a/Cargo.toml"
      { members := [], metadata := { commands := [] } }, rfl, rfl⟩


/-- Counterexample to C7 as stated: a package-only manifest whose package
table lacks `metadata` (hence lacks `metadata.commands`) does not classify
as a package with an empty command table — the conversion of the
non-optional `metadata` field fails and classification errors with
`ParseError`. -/
theorem package_missing_metadata_fails :
    CargoToml.from_path ctxPkgNoMeta 1 "Cargo.toml" =
      some (.error { kind := .ParseError "missing field metadata",
                     message := "Failed to convert package" }) := by
  rfl

/-- Claim C7 (amended): a workspace table without a `metadata` key converts
with an empty command table, but a package table without a `metadata` key
fails its conversion (kind `ParseError`) instead of defaulting to an empty
mapping — only the workspace half of the claim holds on the code. -/
theorem metadata_default_policy (kvs pkvs : List (String × Toml)) (w : Workspace)
    (globFn : GlobFn) (fp : String → Option (Except Error CargoToml))
    (hno : Toml.lookup kvs "metadata" = none)
    (hw : Workspace.tryFromAux globFn fp (.table kvs) = some (.ok w))
    (hpno : Toml.lookup pkvs "metadata" = none) :
    w.metadata = { commands := [] } ∧
    Package.tryFrom (.table pkvs) =
      .error { kind := .ParseError "missing field metadata",
               message := "Failed to convert package" } := by
  constructor
  · have hmd : workspaceMetadata kvs = .ok { commands := [] } := by
      simp [workspaceMetadata, hno]
    simp only [Workspace.tryFromAux] at hw
    cases hm : workspaceMembers globFn fp kvs with
    | none =>
      simp only [hm] at hw
      exact Option.noConfusion hw
    | some res =>
      simp only [hm] at hw
      cases res with
      | error e => simp at hw
      | ok members =>
        simp only [hmd] at hw
        cases members with
        | error e => simp at hw
        | ok ms =>
          simp only [Option.some.injEq, Except.ok.injEq] at hw
          rw [← hw]
  · simp [Package.tryFrom, packageOfToml, hpno]

/-- Witness for the amended C7: a metadata-less workspace converts with an
empty command table; a metadata-less package table fails. -/
theorem metadata_default_policy_witness :
    (Workspace.mk [] { commands := [] }).metadata = { commands := [] } ∧
    Package.tryFrom (.table [("name", .str "foo")]) =
      .error { kind := .ParseError "missing field metadata",
               message := "Failed to convert package" } :=
  metadata_default_policy [("members", .arr [])] [("name", .str "foo")]
    (Workspace.mk [] { commands := [] }) (fun _ => .ok []) (fun _ => none)
    (by rfl) (by rfl) (by rfl)

end CargoCmd
